import Mathlib

/-!
Verification of the couch-context retrieval layer (`cb_memory`).

Shallow embedding of the merge/dedupe, tier-escalation, fallback-scoring,
token-budget, project-scope and sync-cooldown logic of the repository,
together with proofs of the specification's testable properties.

Conventions:
* Python dictionaries carrying retrieval rows are embedded as structures
  holding exactly the fields the embedded code reads; `row.get(k)` on a
  possibly-missing key becomes an `Option` field, `row.get(k, d)` with a
  default becomes a plain field (the default is the absent value).
* Python floats are embedded as `Rat` (the constants involved are exact
  decimal fractions and the claims compare symbolic formulas).
* Calls into the external document store (SQL++ queries, FTS/vector
  indexes, embeddings) are embedded as explicit arguments holding the rows
  the store returns, or as oracle functions, mirroring §6 of the spec
  which treats the store as an external collaborator.
-/

/-! ### Small Python-string helpers -/

/-- `"sep".join(parts)` (Python `str.join`). -/
def pyJoin (sep : String) : List String → String
  | [] => ""
  | [x] => x
  | x :: y :: ys => x ++ sep ++ pyJoin sep (y :: ys)

/-- `s[:n]` on a Python string: the first `n` characters. -/
def pyTake (s : String) (n : Nat) : String := String.mk (s.data.take n)

/-- `s.strip()` on a Python string: drop leading/trailing whitespace. -/
def pyStrip (s : String) : String :=
  String.mk (((s.data.dropWhile Char.isWhitespace).reverse.dropWhile Char.isWhitespace).reverse)

/-- `s.lower()` on a Python string. -/
def pyLower (s : String) : String := String.mk (s.data.map Char.toLower)

/-- Does `needle` start the character list `haystack`? -/
def charsStartWith : List Char → List Char → Bool
  | [], _ => true
  | _ :: _, [] => false
  | a :: as, b :: bs => a = b && charsStartWith as bs

/-- Does `needle` occur contiguously inside `haystack`? -/
def subSearch (needle : List Char) : List Char → Bool
  | [] => needle.isEmpty
  | h :: tl => charsStartWith needle (h :: tl) || subSearch needle tl

/-- `t in blob` on Python strings: substring containment. -/
def strContains (blob t : String) : Bool := subSearch t.data blob.data

theorem string_length_mk (l : List Char) : (String.mk l).length = l.length := rfl

theorem string_length_append (a b : String) : (a ++ b).length = a.length + b.length := by
  cases a with
  | mk da =>
    cases b with
    | mk db =>
      show (String.mk (da ++ db)).length = _
      simp [string_length_mk, String.length]

theorem string_ne_empty_of_length_pos {s : String} (h : 0 < s.length) : s ≠ "" := by
  intro he
  subst he
  simp [String.length] at h

theorem pyJoin_length_ge_head (sep : String) (x : String) (xs : List String) :
    x.length ≤ (pyJoin sep (x :: xs)).length := by
  cases xs with
  | nil => simp [pyJoin]
  | cons y ys => simp [pyJoin, string_length_append]; omega

/-! ### ResultMerger: `_dedupe_results` (tools/search.py:390–399, tools/context.py:340–349)

A retrieval row, as far as deduplication reads it: `r.get("id")` (key may
be missing or empty) and `r.get("score", 0)` (key may be missing). -/

structure DocRow where
  id : Option String
  score : Option Rat
deriving DecidableEq, Repr

/-- The sort key `lambda x: x.get("score", 0)`. -/
def scoreKey (r : DocRow) : Rat := r.score.getD 0

/-- The ordering used by `sorted(results, key=..., reverse=True)`. -/
def byScoreDesc (a b : DocRow) : Prop := scoreKey b ≤ scoreKey a

instance : DecidableRel byScoreDesc :=
  fun a b => inferInstanceAs (Decidable (scoreKey b ≤ scoreKey a))

instance : IsTotal DocRow byScoreDesc :=
  ⟨fun a b => (le_total (scoreKey b) (scoreKey a)).imp id id⟩

instance : IsTrans DocRow byScoreDesc :=
  ⟨fun _ _ _ hab hbc => le_trans hbc hab⟩

/-- `sorted(results, key=lambda x: x.get("score", 0), reverse=True)`;
insertion sort is stable, like Python's `sorted`. -/
def sortByScoreDesc (l : List DocRow) : List DocRow := List.insertionSort byScoreDesc l

/-- The dedupe loop body: `rid = r.get("id"); if not rid or rid in seen: continue`.
Python falsiness of `rid` covers both a missing id and an empty string. -/
def dedupeLoop : List String → List DocRow → List DocRow
  | _, [] => []
  | seen, r :: rs =>
    match r.id with
    | none => dedupeLoop seen rs
    | some rid =>
      if rid = "" ∨ rid ∈ seen then dedupeLoop seen rs
      else r :: dedupeLoop (rid :: seen) rs

/-- `_dedupe_results` (identical in tools/search.py and tools/context.py). -/
def dedupeResults (results : List DocRow) : List DocRow :=
  dedupeLoop [] (sortByScoreDesc results)

theorem dedupeLoop_mem {seen : List String} {l : List DocRow} {r : DocRow}
    (h : r ∈ dedupeLoop seen l) :
    r ∈ l ∧ ∃ rid, r.id = some rid ∧ rid ≠ "" ∧ rid ∉ seen := by
  induction l generalizing seen with
  | nil => simp [dedupeLoop] at h
  | cons x rs ih =>
    cases hx : x.id with
    | none =>
      simp only [dedupeLoop, hx] at h
      rcases ih h with ⟨hmem, hrest⟩
      exact ⟨List.mem_cons_of_mem _ hmem, hrest⟩
    | some xid =>
      simp only [dedupeLoop, hx] at h
      by_cases hc : xid = "" ∨ xid ∈ seen
      · rw [if_pos hc] at h
        rcases ih h with ⟨hmem, hrest⟩
        exact ⟨List.mem_cons_of_mem _ hmem, hrest⟩
      · rw [if_neg hc] at h
        push_neg at hc
        rcases List.mem_cons.mp h with h | h
        · subst h
          exact ⟨List.mem_cons_self _ _, xid, hx, hc.1, hc.2⟩
        · rcases ih h with ⟨hmem, rid, hid, hne, hnotin⟩
          refine ⟨List.mem_cons_of_mem _ hmem, rid, hid, hne, fun hin => hnotin ?_⟩
          exact List.mem_cons_of_mem _ hin

theorem dedupeLoop_pairwise (seen : List String) (l : List DocRow) :
    (dedupeLoop seen l).Pairwise (fun a b => a.id ≠ b.id) := by
  induction l generalizing seen with
  | nil => simp [dedupeLoop]
  | cons x rs ih =>
    cases hx : x.id with
    | none => simpa only [dedupeLoop, hx] using ih seen
    | some xid =>
      simp only [dedupeLoop, hx]
      by_cases hc : xid = "" ∨ xid ∈ seen
      · rw [if_pos hc]; exact ih seen
      · rw [if_neg hc]
        refine List.Pairwise.cons (fun b hb => ?_) (ih (xid :: seen))
        rcases dedupeLoop_mem hb with ⟨_, rid, hid, _, hnotin⟩
        rw [hx, hid]
        intro heq
        have : xid = rid := Option.some.inj heq
        subst this
        exact hnotin (List.mem_cons_self _ _)

theorem dedupeLoop_max_score {seen : List String} {l : List DocRow}
    (hsorted : l.Pairwise byScoreDesc) :
    ∀ r ∈ dedupeLoop seen l, ∀ s ∈ l, s.id = r.id → scoreKey s ≤ scoreKey r := by
  induction l generalizing seen with
  | nil => simp [dedupeLoop]
  | cons x rs ih =>
    have hx_head := (List.pairwise_cons.mp hsorted).1
    have hrs := (List.pairwise_cons.mp hsorted).2
    intro r hr s hs hid
    cases hxid : x.id with
    | none =>
      simp only [dedupeLoop, hxid] at hr
      rcases dedupeLoop_mem hr with ⟨_, rid, hrid, _, _⟩
      rcases List.mem_cons.mp hs with hs | hs
      · subst hs; rw [hxid] at hid; rw [hrid] at hid; cases hid
      · exact ih hrs r hr s hs hid
    | some xid =>
      simp only [dedupeLoop, hxid] at hr
      by_cases hc : xid = "" ∨ xid ∈ seen
      · rw [if_pos hc] at hr
        rcases dedupeLoop_mem hr with ⟨_, rid, hrid, hne, hnotin⟩
        rcases List.mem_cons.mp hs with hs | hs
        · subst hs
          rw [hxid] at hid; rw [hrid] at hid
          have : xid = rid := Option.some.inj hid
          subst this
          rcases hc with hc | hc
          · exact absurd hc hne
          · exact absurd hc hnotin
        · exact ih hrs r hr s hs hid
      · rw [if_neg hc] at hr
        rcases List.mem_cons.mp hr with hr | hr
        · subst hr
          rcases List.mem_cons.mp hs with hs | hs
          · subst hs; exact le_refl _
          · exact hx_head s hs
        · rcases dedupeLoop_mem hr with ⟨_, rid, hrid, _, hnotin⟩
          rcases List.mem_cons.mp hs with hs | hs
          · subst hs
            rw [hxid] at hid; rw [hrid] at hid
            have : xid = rid := Option.some.inj hid
            subst this
            exact absurd (List.mem_cons_self _ _) hnotin
          · exact ih hrs r hr s hs hid

theorem dedupeLoop_covers {seen : List String} {l : List DocRow} {s : DocRow} {rid : String}
    (hs : s ∈ l) (hid : s.id = some rid) (hne : rid ≠ "") (hnotin : rid ∉ seen) :
    ∃ r ∈ dedupeLoop seen l, r.id = some rid := by
  induction l generalizing seen with
  | nil => cases hs
  | cons x rs ih =>
    cases hxid : x.id with
    | none =>
      simp only [dedupeLoop, hxid]
      rcases List.mem_cons.mp hs with hs | hs
      · subst hs; rw [hxid] at hid; cases hid
      · exact ih hs hnotin
    | some xid =>
      simp only [dedupeLoop, hxid]
      by_cases hc : xid = "" ∨ xid ∈ seen
      · rw [if_pos hc]
        rcases List.mem_cons.mp hs with hs | hs
        · subst hs
          rw [hxid] at hid
          have : xid = rid := Option.some.inj hid
          subst this
          rcases hc with hc | hc
          · exact absurd hc hne
          · exact absurd hc hnotin
        · exact ih hs hnotin
      · rw [if_neg hc]
        by_cases hxr : xid = rid
        · subst hxr
          exact ⟨x, List.mem_cons_self _ _, hxid⟩
        · rcases List.mem_cons.mp hs with hs | hs
          · subst hs
            rw [hxid] at hid
            exact absurd (Option.some.inj hid) hxr
          · have hnotin' : rid ∉ xid :: seen := by
              intro hmem
              rcases List.mem_cons.mp hmem with hmem | hmem
              · exact hxr hmem.symm
              · exact hnotin hmem
            rcases ih hs hnotin' with ⟨r, hr, hrid⟩
            exact ⟨r, List.mem_cons_of_mem _ hr, hrid⟩

theorem mem_sortByScoreDesc_iff {l : List DocRow} {s : DocRow} :
    s ∈ sortByScoreDesc l ↔ s ∈ l :=
  (List.perm_insertionSort byScoreDesc l).mem_iff

theorem sortByScoreDesc_pairwise (l : List DocRow) :
    (sortByScoreDesc l).Pairwise byScoreDesc :=
  List.sorted_insertionSort byScoreDesc l

/-- C1 — the merged/deduplicated output contains no two items with the same
id, every surviving item's score is maximal among the input items carrying
its id, and every non-empty input id survives. -/
theorem dedupe_unique_ids_max_score (results : List DocRow) :
    (dedupeResults results).Pairwise (fun a b => a.id ≠ b.id) ∧
    (∀ r ∈ dedupeResults results, ∀ s ∈ results, s.id = r.id → scoreKey s ≤ scoreKey r) ∧
    (∀ s ∈ results, ∀ rid, s.id = some rid → rid ≠ "" →
      ∃ r ∈ dedupeResults results, r.id = some rid) := by
  refine ⟨dedupeLoop_pairwise [] _, ?_, ?_⟩
  · intro r hr s hs hid
    exact dedupeLoop_max_score (sortByScoreDesc_pairwise results) r hr s
      (mem_sortByScoreDesc_iff.mpr hs) hid
  · intro s hs rid hid hne
    exact dedupeLoop_covers (mem_sortByScoreDesc_iff.mpr hs) hid hne (by simp)

/-- C1 witness — on a concrete duplicated id, the surviving copy dominates
the duplicate's score. -/
theorem dedupe_unique_ids_max_score_witness :
    scoreKey ⟨some "a", some 2⟩ ≤ scoreKey ⟨some "a", some 5⟩ :=
  (dedupe_unique_ids_max_score
      [⟨some "a", some 2⟩, ⟨some "b", some 3⟩, ⟨some "a", some 5⟩]).2.1
    ⟨some "a", some 5⟩ (by decide) ⟨some "a", some 2⟩ (by decide) (by decide)

/-- C10 — dedupe output only contains items whose id is present and
non-empty; items with a missing or empty id never survive. -/
theorem dedupe_drops_missing_ids (results : List DocRow) :
    ∀ r ∈ dedupeResults results, r.id ≠ none ∧ r.id ≠ some "" ∧ r ∈ results := by
  intro r hr
  rcases dedupeLoop_mem hr with ⟨hmem, rid, hid, hne, _⟩
  refine ⟨by simp [hid], by simp [hid, hne], mem_sortByScoreDesc_iff.mp hmem⟩

/-- C10 witness — on a concrete input holding a missing-id and an empty-id
row, the only survivor is the row with a real id. -/
theorem dedupe_drops_missing_ids_witness :
    (⟨some "a", some 2⟩ : DocRow).id ≠ none ∧
    (⟨some "a", some 2⟩ : DocRow).id ≠ some "" ∧
    (⟨some "a", some 2⟩ : DocRow) ∈
      [⟨none, some 9⟩, ⟨some "", some 8⟩, ⟨some "a", some 2⟩] :=
  dedupe_drops_missing_ids [⟨none, some 9⟩, ⟨some "", some 8⟩, ⟨some "a", some 2⟩]
    ⟨some "a", some 2⟩ (by decide)

/-! ### Query-term extraction and keyword scoring (tools/context.py:200–235)

`_extract_query_terms` tokenizes with `re.findall(r"[A-Za-z0-9_./:-]+", query.lower())`,
drops tokens shorter than 3 characters and stop-words, deduplicates
preserving first-seen order, and caps at 12 terms. -/

/-- Membership in the regex character class `[A-Za-z0-9_./:-]`. -/
def isTermChar (c : Char) : Bool :=
  ('a' ≤ c && c ≤ 'z') || ('A' ≤ c && c ≤ 'Z') || ('0' ≤ c && c ≤ '9') ||
  c = '_' || c = '.' || c = '/' || c = ':' || c = '-'

/-- `re.findall` of maximal runs of term characters; `acc` is the current
run collected in reverse. -/
def tokensAux : List Char → List Char → List (List Char)
  | [], acc => if acc.isEmpty then [] else [acc.reverse]
  | c :: cs, acc =>
    if isTermChar c then tokensAux cs (c :: acc)
    else if acc.isEmpty then tokensAux cs [] else acc.reverse :: tokensAux cs []

def findTokens (l : List Char) : List (List Char) := tokensAux l []

/-- The stop-word set of `_extract_query_terms`. -/
def stopWords : List String :=
  ["the", "and", "for", "with", "from", "this", "that", "what", "where",
   "when", "how", "why", "tell", "show", "give", "about", "into", "does",
   "did", "are", "was", "were", "has", "have", "had", "project", "context",
   "please", "can", "you"]

/-- First-seen-order deduplication of a string list. -/
def dedupStringsLoop : List String → List String → List String
  | _, [] => []
  | seen, t :: ts =>
    if t ∈ seen then dedupStringsLoop seen ts
    else t :: dedupStringsLoop (t :: seen) ts

/-- `_extract_query_terms` (tools/context.py:200–223). -/
def extractQueryTerms (query : String) : List String :=
  let tokens := (findTokens (pyLower query).data).map String.mk
  let terms := tokens.filter (fun t => decide (¬ t.length < 3 ∧ t ∉ stopWords))
  (dedupStringsLoop [] terms).take 12

/-- `_keyword_score` (tools/context.py:226–235): the keyword-overlap ratio
`hits / max(1, len(terms))` over lowercased text. -/
def keywordScore (text : String) (terms : List String) : Rat :=
  let blob := pyLower text
  if blob = "" ∨ terms = [] then 0
  else ((terms.countP (fun t => strContains blob t) : Nat) : Rat) / ((max 1 terms.length : Nat) : Rat)

/-! ### Raw-chat fallback tier (tools/context.py:238–337)

The two SQL++ queries it issues run on the external store; the rows they
return are passed in as `msgRows` / `sessRows`.  A tool-call dict is
embedded with its `name` and its string-valued `input` entries; entries
that Python's `isinstance` guards would skip (non-dict calls, non-string
values) are not representable in the typed embedding and correspond to
absent fields. -/

structure ToolCall where
  name : Option String
  input : Option (List (String × String))
deriving DecidableEq, Repr

structure ToolResult where
  content : Option String
deriving DecidableEq, Repr

/-- `d.get(k)` on a string-valued dict. -/
def dictGet (d : List (String × String)) (k : String) : Option String :=
  (d.find? (fun kv => kv.1 == k)).map (fun kv => kv.2)

/-- A chain `a or b or ...` of Python string lookups: the first value that
is neither `None` nor empty (an all-falsy chain behaves like `None` for
the `strip()` checks that follow). -/
def pyOrSome : List (Option String) → Option String
  | [] => none
  | x :: xs =>
    match x with
    | some s => if s = "" then pyOrSome xs else some s
    | none => pyOrSome xs

/-- The per-tool-call label built by `_tool_signal_text` (tools/context.py:352–375);
`none` when the call has no usable name and is skipped. -/
def toolCallLabel (tc : ToolCall) : Option String :=
  let name := pyStrip (tc.name.getD "")
  if name = "" then none
  else
    let label := name
    let label :=
      match tc.input with
      | none => label
      | some input =>
        let label :=
          match dictGet input "subagent_type" with
          | some st => if pyStrip st ≠ "" then label ++ "(" ++ pyStrip st ++ ")" else label
          | none => label
        if name = "skill" then
          match pyOrSome [dictGet input "name", dictGet input "skill",
              dictGet input "skill_name", dictGet input "path"] with
          | some sn => if pyStrip sn ≠ "" then label ++ "(" ++ pyStrip sn ++ ")" else label
          | none => label
        else label
    some label

/-- `_tool_signal_text` (tools/context.py:352–384). -/
def toolSignalText (toolCalls : List ToolCall) (toolResults : List ToolResult) : String :=
  let parts := toolCalls.filterMap toolCallLabel ++
    toolResults.filterMap (fun tr =>
      match tr.content with
      | some c => if pyStrip c ≠ "" then some (pyTake (pyStrip c) 120) else none
      | none => none)
  pyJoin " | " parts

/-- A message row returned by the fallback's message query (joined with its
parent session); fields default to `""`/`[]` exactly as the `row.get(k, d)`
reads do. -/
structure MsgRow where
  id : String
  text_content : String
  tool_calls : List ToolCall
  tool_results : List ToolResult
  session_title : String
  session_summary : String
deriving DecidableEq, Repr

/-- A session row returned by the fallback's session query. -/
structure SessRow where
  id : String
  title : String
  summary : String
deriving DecidableEq, Repr

/-- The `score_text` assembled for a message row (tools/context.py:287–294). -/
def msgScoreText (m : MsgRow) : String :=
  pyJoin "\n" [m.text_content, toolSignalText m.tool_calls m.tool_results,
    m.session_title, m.session_summary]

/-- The `score_text` assembled for a session row (tools/context.py:331). -/
def sessScoreText (s : SessRow) : String := pyJoin "\n" [s.title, s.summary]

/-- A fallback result: the source row tagged with its `_collection` and the
score the fallback attached. -/
inductive RawItem where
  | msg (row : MsgRow) (score : Rat)
  | sess (row : SessRow) (score : Rat)
deriving DecidableEq, Repr

def RawItem.score : RawItem → Rat
  | .msg _ sc => sc
  | .sess _ sc => sc

/-- `_raw_chat_fallback` (tools/context.py:238–337): message rows are scored
`0.25 + _keyword_score(score_text, terms)` when terms were extracted and
`0.05` otherwise; session rows are scored `0.2 + _keyword_score(...)` and
`0.05` respectively. -/
def rawChatFallback (query : String) (msgRows : List MsgRow) (sessRows : List SessRow) :
    List RawItem :=
  let terms := extractQueryTerms query
  msgRows.map (fun r =>
    RawItem.msg r (if terms ≠ [] then 1/4 + keywordScore (msgScoreText r) terms else 1/20))
  ++ sessRows.map (fun s =>
    RawItem.sess s (if terms ≠ [] then 1/5 + keywordScore (sessScoreText s) terms else 1/20))

/-- A concrete session row (from the repository's own fallback test). -/
def sessEx : SessRow := ⟨"session::1", "connect this with codex and claude code", ""⟩

theorem extract_terms_ex :
    extractQueryTerms "connect codex memory" = ["connect", "codex", "memory"] := by decide

theorem keywordScore_sessEx :
    keywordScore (sessScoreText sessEx) ["connect", "codex", "memory"] = 2/3 := by
  unfold keywordScore
  rw [if_neg (by decide)]
  have hcount : List.countP (fun t => strContains (pyLower (sessScoreText sessEx)) t)
      ["connect", "codex", "memory"] = 2 := by decide
  rw [hcount]
  norm_num

theorem rawChatFallback_ex :
    rawChatFallback "connect codex memory" [] [sessEx] = [RawItem.sess sessEx (13/15)] := by
  simp only [rawChatFallback, extract_terms_ex, List.map_cons, List.map_nil, List.nil_append]
  rw [if_pos (by decide), keywordScore_sessEx]
  have h : (1 : Rat)/5 + 2/3 = 13/15 := by norm_num
  rw [h]

/-- C3 counterexample — the raw-chat fallback produces a session item whose
score is `0.2 + overlap` (here `13/15`), not the claimed `0.25 + overlap`. -/
theorem raw_fallback_score_counterexample :
    RawItem.sess sessEx (13/15) ∈ rawChatFallback "connect codex memory" [] [sessEx] ∧
    extractQueryTerms "connect codex memory" ≠ [] ∧
    (13 : Rat)/15 ≠
      1/4 + keywordScore (sessScoreText sessEx) (extractQueryTerms "connect codex memory") := by
  refine ⟨?_, ?_, ?_⟩
  · rw [rawChatFallback_ex]
    exact List.mem_singleton.mpr rfl
  · rw [extract_terms_ex]
    decide
  · rw [extract_terms_ex, keywordScore_sessEx]
    norm_num

/-- C3 amended — when terms were extracted, a raw-fallback **message** item
scores `0.25 + keyword_overlap_ratio` and a **session** item scores
`0.2 + keyword_overlap_ratio`; with no terms every item scores the flat `0.05`. -/
theorem raw_fallback_score_amended (query : String) (msgRows : List MsgRow)
    (sessRows : List SessRow) :
    ∀ it ∈ rawChatFallback query msgRows sessRows,
      (extractQueryTerms query = [] → it.score = 1/20) ∧
      (extractQueryTerms query ≠ [] →
        (∀ r sc, it = RawItem.msg r sc →
          sc = 1/4 + keywordScore (msgScoreText r) (extractQueryTerms query)) ∧
        (∀ s sc, it = RawItem.sess s sc →
          sc = 1/5 + keywordScore (sessScoreText s) (extractQueryTerms query))) := by
  intro it hit
  simp only [rawChatFallback] at hit
  rcases List.mem_append.mp hit with h | h
  · rcases List.mem_map.mp h with ⟨r, -, rfl⟩
    refine ⟨fun hterms => ?_, fun hterms => ⟨?_, ?_⟩⟩
    · simp [RawItem.score, hterms]
    · rintro r2 sc heq
      injection heq with h1 h2
      subst h1
      rw [← h2, if_pos hterms]
    · rintro s2 sc heq
      cases heq
  · rcases List.mem_map.mp h with ⟨s, -, rfl⟩
    refine ⟨fun hterms => ?_, fun hterms => ⟨?_, ?_⟩⟩
    · simp [RawItem.score, hterms]
    · rintro r2 sc heq
      cases heq
    · rintro s2 sc heq
      injection heq with h1 h2
      subst h1
      rw [← h2, if_pos hterms]

/-- C3 amended witness — the concrete session item's score evaluates to the
amended formula. -/
theorem raw_fallback_score_amended_witness :
    (13 : Rat)/15 =
      1/5 + keywordScore (sessScoreText sessEx) (extractQueryTerms "connect codex memory") :=
  ((raw_fallback_score_amended "connect codex memory" [] [sessEx]
      (RawItem.sess sessEx (13/15))
      (by rw [rawChatFallback_ex]; exact List.mem_singleton.mpr rfl)).2
    (by rw [extract_terms_ex]; decide)).2 sessEx (13/15) rfl

/-! ### Token budgeting (tools/context.py:880–893) -/

/-- `_estimate_tokens`: `max(1, len(text) // 4)`. -/
def estimateTokens (text : String) : Nat := max 1 (text.length / 4)

/-- `_trim_to_token_budget` (tools/context.py:885–893). -/
def trimToTokenBudget (text : String) (maxTokens : Int) : String :=
  if maxTokens ≤ 0 then ""
  else if (estimateTokens text : Int) ≤ maxTokens then text
  else
    let maxChars : Int := maxTokens * 4
    if maxChars ≤ 1 then "…"
    else pyTake text (maxChars - 1).toNat ++ "…"

/-- C4 counterexample — a 7-character text at budget 1 passes the estimate
check untouched, violating `len ≤ max_tokens * 4`. -/
theorem trim_budget_counterexample :
    (trimToTokenBudget "abcdefg" 1).length = 7 ∧ ¬ ((7 : Int) ≤ 1 * 4) := by
  refine ⟨by decide, by decide⟩

/-- C4 amended — after trimming, `len(text) ≤ max_tokens * 4 + 3` for every
budget `max_tokens ≥ 1` (the untrimmed branch can exceed the budget by up
to the 3 characters the integer division discards). -/
theorem trim_budget_amended (s : String) (m : Int) (h : 1 ≤ m) :
    ((trimToTokenBudget s m).length : Int) ≤ m * 4 + 3 := by
  unfold trimToTokenBudget
  rw [if_neg (by omega)]
  by_cases h2 : (estimateTokens s : Int) ≤ m
  · rw [if_pos h2]
    have hmax : (s.length / 4 : Nat) ≤ estimateTokens s := Nat.le_max_right _ _
    omega
  · rw [if_neg h2]
    simp only []
    by_cases h3 : (m * 4 : Int) ≤ 1
    · rw [if_pos h3]
      have h4 : ("…" : String).length = 1 := by decide
      omega
    · rw [if_neg h3]
      have hlen : (pyTake s (m * 4 - 1).toNat ++ "…").length =
          (s.data.take (m * 4 - 1).toNat).length + 1 := by
        rw [string_length_append]
        rfl
      have htake : (s.data.take (m * 4 - 1).toNat).length ≤ (m * 4 - 1).toNat :=
        le_trans (List.length_take _ _).le (min_le_left _ _)
      omega

/-- C4 amended witness — evaluated at the concrete counterexample input. -/
theorem trim_budget_amended_witness :
    ((trimToTokenBudget "abcdefg" 1).length : Int) ≤ 1 * 4 + 3 :=
  trim_budget_amended "abcdefg" 1 (by decide)

/-! ### Tier escalation in `memory_context_for_request` (tools/context.py:1012–1059)

The decision and bookkeeping around the KV+semantic fallback tier: the
primary semantic results and the file-path FTS hits are collected first,
then `if len(results) < max(4, limit // 2)` the query terms are extracted
and, when non-empty, `memory_kv_semantic_search` is called once; the
raw-chat fallback is appended unconditionally afterwards. -/

structure ContextRetrievalTrace where
  results : List DocRow
  kvSemanticCalls : Nat
  kvSemanticHits : Nat
deriving Repr

/-- `if "score" not in r: r["score"] = 0.15` applied to each KV result. -/
def kvScoreDefault (r : DocRow) : DocRow :=
  if r.score = none then { r with score := some (3/20) } else r

/-- The tier-escalation skeleton of `memory_context_for_request`;
`kvSemanticSearch` is the (external, store-backed) KV+semantic operation
and `kvSemanticCalls` counts its invocations. -/
def contextRetrievalPipeline (query : String) (limit : Nat)
    (primaryResults filePathResults : List DocRow)
    (kvSemanticSearch : List String → List DocRow)
    (rawResults : List DocRow) : ContextRetrievalTrace :=
  let results := primaryResults ++ filePathResults
  if results.length < max 4 (limit / 2) then
    let terms := extractQueryTerms query
    if terms ≠ [] then
      let kvResults := (kvSemanticSearch terms).map kvScoreDefault
      { results := results ++ kvResults ++ rawResults,
        kvSemanticCalls := 1, kvSemanticHits := kvResults.length }
    else
      { results := results ++ rawResults, kvSemanticCalls := 0, kvSemanticHits := 0 }
  else
    { results := results ++ rawResults, kvSemanticCalls := 0, kvSemanticHits := 0 }

/-- C2 — when the primary (vector/FTS plus file-path) retrieval yields at
least `max(4, limit // 2)` items, the KV+semantic fallback is never called. -/
theorem tier2_skipped_when_primary_sufficient (query : String) (limit : Nat)
    (primaryResults filePathResults : List DocRow)
    (kvSemanticSearch : List String → List DocRow) (rawResults : List DocRow)
    (h : max 4 (limit / 2) ≤ (primaryResults ++ filePathResults).length) :
    (contextRetrievalPipeline query limit primaryResults filePathResults
      kvSemanticSearch rawResults).kvSemanticCalls = 0 := by
  simp only [contextRetrievalPipeline]
  rw [if_neg (Nat.not_lt.mpr h)]

/-- C2 witness — with `limit = 8` the floor is 4; four primary items
suppress the fallback. -/
theorem tier2_skipped_witness :
    (contextRetrievalPipeline "refactor parser" 8
        [⟨some "a", some 1⟩, ⟨some "b", some 1⟩, ⟨some "c", some 1⟩, ⟨some "d", some 1⟩]
        [] (fun _ => []) []).kvSemanticCalls = 0 :=
  tier2_skipped_when_primary_sufficient _ _ _ _ _ _ (by decide)

/-! ### ProjectScopeResolver (project.py)

`Path(directory).expanduser().resolve()` is a filesystem effect; it is
supplied as the abstract resolver `resolvePath`, quantified over in every
theorem, so the results hold for any filesystem state. -/

/-- `normalize_project_path` (project.py:8–15). -/
def normalizeProjectPath (resolvePath : String → String) (directory : String) : String :=
  if directory = "" then "" else resolvePath directory

/-- `resolve_runtime_project_id` (project.py:34–58). -/
def resolveRuntimeProjectId (resolvePath : String → String)
    (requestedProjectId currentProjectId : Option String)
    (defaultProjectId : String) (allowUnset : Bool) : Option String :=
  if requestedProjectId = none ∧ allowUnset then none
  else
    let requested :=
      match requestedProjectId with
      | none => defaultProjectId
      | some r => if r = "" then defaultProjectId else r
    if requested ≠ "" ∧ requested ≠ defaultProjectId then some requested
    else
      let normalizedCurrent := normalizeProjectPath resolvePath (currentProjectId.getD "")
      if normalizedCurrent ≠ "" ∧ normalizedCurrent ≠ "/" ∧ normalizedCurrent ≠ "." then
        some normalizedCurrent
      else some requested

/-- The loop of `normalize_project_ids` (project.py:61–75): skip trivial
normalizations, deduplicate by the `seen` set, preserve first-seen order. -/
def normalizePidLoop (resolvePath : String → String) :
    List String → List String → List String
  | _, [] => []
  | seen, pid :: rest =>
    let normalized := normalizeProjectPath resolvePath pid
    if normalized = "" ∨ normalized = "/" ∨ normalized = "." then
      normalizePidLoop resolvePath seen rest
    else if normalized ∈ seen then normalizePidLoop resolvePath seen rest
    else normalized :: normalizePidLoop resolvePath (normalized :: seen) rest

/-- `normalize_project_ids` (project.py:61–75); `None` and `[]` both yield `[]`. -/
def normalizeProjectIds (resolvePath : String → String)
    (projectIds : Option (List String)) : List String :=
  match projectIds with
  | none => []
  | some l => normalizePidLoop resolvePath [] l

/-- The `resolve_runtime_project_id(...) or default_project_id` step of
`resolve_project_scope` (project.py:116–120). -/
def effectiveProjectId (resolvePath : String → String)
    (requestedProjectId currentProjectId : Option String)
    (defaultProjectId : String) : String :=
  match resolveRuntimeProjectId resolvePath requestedProjectId currentProjectId
      defaultProjectId false with
  | none => defaultProjectId
  | some e => if e = "" then defaultProjectId else e

/-- `resolve_project_scope` (project.py:103–129). -/
def resolveProjectScope (resolvePath : String → String)
    (requestedProjectId currentProjectId : Option String)
    (relatedProjectIds : Option (List String)) (includeAllProjects : Bool)
    (defaultProjectId : String) : String × Option (List String) :=
  let effective := effectiveProjectId resolvePath requestedProjectId currentProjectId
    defaultProjectId
  if includeAllProjects then (effective, none)
  else
    (effective,
      some (effective :: (normalizeProjectIds resolvePath relatedProjectIds).filter
        (fun pid => decide (pid ≠ effective))))

/-- C5 — with `include_all_projects` resolved true, the scope is global
(`None`) whatever the related projects are. -/
theorem include_all_gives_global_scope (resolvePath : String → String)
    (requestedProjectId currentProjectId : Option String)
    (relatedProjectIds : Option (List String)) (defaultProjectId : String) :
    (resolveProjectScope resolvePath requestedProjectId currentProjectId
      relatedProjectIds true defaultProjectId).2 = none := rfl

theorem normalizePidLoop_mem {resolvePath : String → String} {seen l : List String}
    {x : String} (h : x ∈ normalizePidLoop resolvePath seen l) : x ∉ seen := by
  induction l generalizing seen with
  | nil => simp [normalizePidLoop] at h
  | cons pid rest ih =>
    simp only [normalizePidLoop] at h
    by_cases h1 : normalizeProjectPath resolvePath pid = "" ∨
        normalizeProjectPath resolvePath pid = "/" ∨ normalizeProjectPath resolvePath pid = "."
    · rw [if_pos h1] at h
      exact ih h
    · rw [if_neg h1] at h
      by_cases h2 : normalizeProjectPath resolvePath pid ∈ seen
      · rw [if_pos h2] at h
        exact ih h
      · rw [if_neg h2] at h
        rcases List.mem_cons.mp h with h | h
        · subst h
          exact h2
        · intro hx
          exact ih h (List.mem_cons_of_mem _ hx)

theorem normalizePidLoop_nodup (resolvePath : String → String) (seen l : List String) :
    (normalizePidLoop resolvePath seen l).Nodup := by
  induction l generalizing seen with
  | nil => simp [normalizePidLoop]
  | cons pid rest ih =>
    simp only [normalizePidLoop]
    by_cases h1 : normalizeProjectPath resolvePath pid = "" ∨
        normalizeProjectPath resolvePath pid = "/" ∨ normalizeProjectPath resolvePath pid = "."
    · rw [if_pos h1]; exact ih seen
    · rw [if_neg h1]
      by_cases h2 : normalizeProjectPath resolvePath pid ∈ seen
      · rw [if_pos h2]; exact ih seen
      · rw [if_neg h2]
        refine List.Nodup.cons (fun hmem => ?_) (ih _)
        exact normalizePidLoop_mem hmem (List.mem_cons_self _ _)

theorem normalizePidLoop_sublist (resolvePath : String → String) (seen l : List String) :
    List.Sublist (normalizePidLoop resolvePath seen l) (l.map (normalizeProjectPath resolvePath)) := by
  induction l generalizing seen with
  | nil => simp [normalizePidLoop]
  | cons pid rest ih =>
    simp only [normalizePidLoop, List.map_cons]
    by_cases h1 : normalizeProjectPath resolvePath pid = "" ∨
        normalizeProjectPath resolvePath pid = "/" ∨ normalizeProjectPath resolvePath pid = "."
    · rw [if_pos h1]; exact (ih seen).cons _
    · rw [if_neg h1]
      by_cases h2 : normalizeProjectPath resolvePath pid ∈ seen
      · rw [if_pos h2]; exact (ih seen).cons _
      · rw [if_neg h2]; exact (ih _).cons₂ _

/-- C6 — with `include_all_projects` false, the scope is non-empty, headed
by the effective project, and its tail is exactly the normalized,
first-seen-order-deduplicated related projects with the effective project
removed (dedup shown by `Nodup`, order preservation by the sublist fact). -/
theorem scope_head_effective_tail_dedup (resolvePath : String → String)
    (requestedProjectId currentProjectId : Option String)
    (relatedProjectIds : Option (List String)) (defaultProjectId : String) :
    ∃ eff rest,
      resolveProjectScope resolvePath requestedProjectId currentProjectId
        relatedProjectIds false defaultProjectId = (eff, some (eff :: rest)) ∧
      eff = effectiveProjectId resolvePath requestedProjectId currentProjectId
        defaultProjectId ∧
      rest = (normalizeProjectIds resolvePath relatedProjectIds).filter
        (fun pid => decide (pid ≠ eff)) ∧
      (eff :: rest).Nodup ∧
      List.Sublist rest ((relatedProjectIds.getD []).map (normalizeProjectPath resolvePath)) := by
  refine ⟨_, _, rfl, rfl, rfl, ?_, ?_⟩
  · refine List.Nodup.cons (fun hmem => ?_) ?_
    · rcases List.mem_filter.mp hmem with ⟨-, hne⟩
      exact absurd rfl (of_decide_eq_true hne)
    · refine List.Nodup.filter _ ?_
      cases relatedProjectIds with
      | none => simp [normalizeProjectIds]
      | some l => exact normalizePidLoop_nodup resolvePath [] l
  · refine (List.filter_sublist _).trans ?_
    cases relatedProjectIds with
    | none => simp [normalizeProjectIds]
    | some l => exact normalizePidLoop_sublist resolvePath [] l

/-! ### QuerySyncGuard: `maybe_auto_sync_recent` (sync.py:93–143)

The module-level cooldown state (`_last_query_sync_monotonic`,
`_last_query_sync_result`) is threaded explicitly; the two importer runs
are external effects whose outcomes are passed in, and the returned `Bool`
records whether they were executed. `R` is the (opaque) importer-outcome
type. -/

structure SyncSettings where
  autoImportOnQuery : Bool
  autoImportMinIntervalSeconds : Int

/-- The `{"status": "ok", "claude": ..., "codex": ..., "interval_seconds": ...}`
result recorded on a successful pass. -/
structure SyncOkResult (R : Type) where
  claude : R
  codex : R
  intervalSeconds : Int

structure SyncState (R : Type) where
  lastMonotonic : Rat
  lastResult : Option (SyncOkResult R)

inductive SyncCheck (R : Type) where
  | disabled
  | skipped (secondsUntilNext : Int) (lastSync : Option (SyncOkResult R))
  | ok (result : SyncOkResult R)

def SyncCheck.status {R : Type} : SyncCheck R → String
  | .disabled => "disabled"
  | .skipped _ _ => "skipped"
  | .ok _ => "ok"

/-- `maybe_auto_sync_recent` (sync.py:93–143); `seconds_until_next` is
`max(0, int(interval - elapsed))`, and `int()` truncation coincides with
`⌊·⌋` on the positive value it is applied to inside the cooldown branch. -/
def maybeAutoSyncRecent {R : Type} (settings : SyncSettings) (force : Bool)
    (now : Rat) (claudeOutcome codexOutcome : R) (st : SyncState R) :
    SyncCheck R × SyncState R × Bool :=
  if settings.autoImportOnQuery = false then (.disabled, st, false)
  else
    let intervalSeconds : Int := max 0 settings.autoImportMinIntervalSeconds
    let elapsed : Rat := now - st.lastMonotonic
    if force = false ∧ 0 < st.lastMonotonic ∧ elapsed < (intervalSeconds : Rat) then
      (.skipped (max 0 ⌊(intervalSeconds : Rat) - elapsed⌋) st.lastResult, st, false)
    else
      let result : SyncOkResult R := ⟨claudeOutcome, codexOutcome, intervalSeconds⟩
      (.ok result, ⟨now, some result⟩, true)

/-- The concrete settings of the C7 scenario: sync enabled, 60s cooldown. -/
def cooldownSettings : SyncSettings := ⟨true, 60⟩

/-- C7 — with a 60s cooldown and a sync recorded at t=100: a check at t=130
is skipped without running the importers and leaves the state unchanged; a
check at t=165 runs a new sync and records time and result; a forced check
at any time runs a new sync and records time and result. -/
theorem sync_cooldown_scenario {R : Type} (res : Option (SyncOkResult R))
    (c1 x1 c2 x2 : R) :
    (maybeAutoSyncRecent cooldownSettings false 130 c1 x1 ⟨100, res⟩ =
      (.skipped 30 res, ⟨100, res⟩, false)) ∧
    (maybeAutoSyncRecent cooldownSettings false 165 c2 x2 ⟨100, res⟩ =
      (.ok ⟨c2, x2, 60⟩, ⟨165, some ⟨c2, x2, 60⟩⟩, true)) ∧
    (∀ (now : Rat) (c x : R),
      maybeAutoSyncRecent cooldownSettings true now c x ⟨100, res⟩ =
        (.ok ⟨c, x, 60⟩, ⟨now, some ⟨c, x, 60⟩⟩, true)) := by
  have hmax : (max 0 60 : Int) = 60 := by decide
  refine ⟨?_, ?_, fun now c x => ?_⟩
  · simp only [maybeAutoSyncRecent, cooldownSettings, hmax]
    rw [if_neg (by simp), if_pos (by norm_num)]
    norm_num
  · simp only [maybeAutoSyncRecent, cooldownSettings, hmax]
    rw [if_neg (by simp), if_neg (by norm_num)]
  · simp only [maybeAutoSyncRecent, cooldownSettings, hmax]
    rw [if_neg (by simp), if_neg (by simp)]

/-! ### `memory_kv_semantic_search` fast-fail (tools/search.py:171–234)

The KV grep and the semantic search are store-backed operations, embedded
as oracles; `backendCalls` counts how many of them the operation invokes
(the grep and the semantic search, each of which is itself entirely
backend work — zero means no store, index or embedding access at all). -/

structure KvSearchResponse where
  error : Option String
  terms : List String
  resultCount : Nat
  results : List DocRow
  backendCalls : Nat
deriving DecidableEq, Repr

/-- `[t.strip() for t in terms if t and t.strip()]`. -/
def cleanedTermsList (terms : List String) : List String :=
  (terms.filter (fun t => decide (t ≠ "" ∧ pyStrip t ≠ ""))).map pyStrip

/-- `memory_kv_semantic_search` (tools/search.py:171–234): fail fast on an
empty cleaned term list, otherwise KV grep + semantic search, merge,
dedupe, truncate to `limit`. -/
def memoryKvSemanticSearch (terms : List String) (limit : Nat)
    (kvGrep : List String → List DocRow)
    (semanticSearch : String → List DocRow) : KvSearchResponse :=
  let cleaned := cleanedTermsList terms
  if cleaned = [] then
    { error := some "No valid terms provided", terms := [], resultCount := 0,
      results := [], backendCalls := 0 }
  else
    let kvResults := kvGrep cleaned
    let semantic := semanticSearch (pyJoin " " cleaned)
    let merged := dedupeResults (kvResults ++ semantic)
    { error := none, terms := cleaned, resultCount := (merged.take limit).length,
      results := merged.take limit, backendCalls := 2 }

/-- C8 — when every term trims to nothing, the operation returns the
structured error with an empty result list and performs zero backend
calls. -/
theorem kv_search_empty_terms_fails_fast (terms : List String) (limit : Nat)
    (kvGrep : List String → List DocRow) (semanticSearch : String → List DocRow)
    (h : cleanedTermsList terms = []) :
    memoryKvSemanticSearch terms limit kvGrep semanticSearch =
      { error := some "No valid terms provided", terms := [], resultCount := 0,
        results := [], backendCalls := 0 } := by
  simp [memoryKvSemanticSearch, h]

/-- C8 witness — `["", "   "]` cleans to the empty list and fails fast. -/
theorem kv_search_empty_terms_fails_fast_witness :
    memoryKvSemanticSearch ["", "   "] 20 (fun _ => []) (fun _ => []) =
      { error := some "No valid terms provided", terms := [], resultCount := 0,
        results := [], backendCalls := 0 } :=
  kv_search_empty_terms_fails_fast ["", "   "] 20 (fun _ => []) (fun _ => []) (by decide)

/-! ### Heuristic context synthesizer (tools/context.py:177–180, 678–710)

`_heuristic_context_summary` walks the globally ranked evidence candidates
(the output of `_build_candidate_evidence`, here an arbitrary input list,
so the results hold for every grouped-evidence input), emits one bullet
per unique `(kind, text)` signature while the running token estimate fits
the budget, appends an explicit marker when no evidence line was kept, and
hard-trims the result. -/

structure EvidenceCand where
  kind : String
  text : String
  source : String
  score : Rat
deriving DecidableEq, Repr

/-- `_truncate` (tools/context.py:177–180). -/
def truncateText (text : String) (maxLen : Nat) : String :=
  if text.length ≤ maxLen then text else pyTake text (maxLen - 1) ++ "…"

/-- The bullet line `f"- [{c['kind']}|{c['source']}] {_truncate(c['text'], 220)}"`. -/
def candidateLine (c : EvidenceCand) : String :=
  "- [" ++ c.kind ++ "|" ++ c.source ++ "] " ++ truncateText c.text 220

/-- The candidate loop of `_heuristic_context_summary`: skip seen
signatures, append a bullet, pop it and stop as soon as the assembled text
overflows the budget. -/
def summaryLoop (maxTokens : Int) :
    List EvidenceCand → List String → List String → List String
  | [], _, lines => lines
  | c :: cs, seen, lines =>
    let signature := c.kind ++ "::" ++ c.text
    if signature ∈ seen then summaryLoop maxTokens cs seen lines
    else
      let lines2 := lines ++ [candidateLine c]
      if maxTokens < (estimateTokens (pyJoin "\n" lines2) : Int) then lines
      else summaryLoop maxTokens cs (signature :: seen) lines2

/-- The five header lines the summary always starts from. -/
def baseSummaryLines (query reasoningText : String) : List String :=
  ["Context reasoning:", reasoningText, "", "Task: " ++ query,
   "Most relevant retrieved context:"]

def noEvidenceMarker : String := "- No high-signal retrieved evidence found."

/-- The line list of `_heuristic_context_summary` before the final join and
trim, including the `len(lines) <= 5` marker rule. -/
def heuristicContextLines (query : String) (candidates : List EvidenceCand)
    (reasoningText : String) (maxTokens : Int) : List String :=
  let lines := summaryLoop maxTokens candidates [] (baseSummaryLines query reasoningText)
  if lines.length ≤ 5 then lines ++ [noEvidenceMarker] else lines

/-- `_heuristic_context_summary` (tools/context.py:678–710). -/
def heuristicContextSummary (query : String) (candidates : List EvidenceCand)
    (reasoningText : String) (maxTokens : Int) : String :=
  trimToTokenBudget
    (pyJoin "\n" (heuristicContextLines query candidates reasoningText maxTokens)) maxTokens

/-- C9 counterexample — at token budget 0 the final trim returns the empty
string, so the synthesizer's output *is* silently empty. -/
theorem heuristic_summary_counterexample :
    heuristicContextSummary "q" [] "r" 0 = "" := rfl

theorem summaryLoop_extends (maxTokens : Int) (cs : List EvidenceCand)
    (seen lines : List String) :
    ∃ ex, summaryLoop maxTokens cs seen lines = lines ++ ex := by
  induction cs generalizing seen lines with
  | nil => exact ⟨[], by simp [summaryLoop]⟩
  | cons c rest ih =>
    simp only [summaryLoop]
    by_cases h1 : c.kind ++ "::" ++ c.text ∈ seen
    · rw [if_pos h1]; exact ih seen lines
    · rw [if_neg h1]
      by_cases h2 : maxTokens <
          (estimateTokens (pyJoin "\n" (lines ++ [candidateLine c])) : Int)
      · rw [if_pos h2]; exact ⟨[], by simp⟩
      · rw [if_neg h2]
        rcases ih ((c.kind ++ "::" ++ c.text) :: seen) (lines ++ [candidateLine c]) with ⟨ex, hex⟩
        exact ⟨candidateLine c :: ex, by simp [hex]⟩

theorem trim_ne_empty (t : String) (m : Int) (h1 : 1 ≤ m) (h2 : 0 < t.length) :
    trimToTokenBudget t m ≠ "" := by
  unfold trimToTokenBudget
  rw [if_neg (by omega)]
  by_cases hb : (estimateTokens t : Int) ≤ m
  · rw [if_pos hb]
    exact string_ne_empty_of_length_pos h2
  · rw [if_neg hb]
    simp only []
    by_cases hc : (m * 4 : Int) ≤ 1
    · rw [if_pos hc]
      decide
    · rw [if_neg hc]
      refine string_ne_empty_of_length_pos ?_
      rw [string_length_append]
      have h4 : ("…" : String).length = 1 := by decide
      omega

/-- C9 amended — for every query, candidate list, reasoning text and token
budget ≥ 1, the heuristic summary is non-empty; independent of the budget,
the assembled line list always starts with the reasoning header, and when
the candidate walk kept no evidence line the explicit no-evidence marker
is present. -/
theorem heuristic_summary_never_empty (query : String) (candidates : List EvidenceCand)
    (reasoningText : String) (m : Int) (h : 1 ≤ m) :
    heuristicContextSummary query candidates reasoningText m ≠ "" ∧
    (heuristicContextLines query candidates reasoningText m).head? =
      some "Context reasoning:" ∧
    (summaryLoop m candidates [] (baseSummaryLines query reasoningText) =
        baseSummaryLines query reasoningText →
      noEvidenceMarker ∈ heuristicContextLines query candidates reasoningText m) := by
  rcases summaryLoop_extends m candidates [] (baseSummaryLines query reasoningText)
    with ⟨ex, hex⟩
  have hhead : (heuristicContextLines query candidates reasoningText m).head? =
      some "Context reasoning:" := by
    unfold heuristicContextLines
    rw [hex]
    by_cases hlen : (baseSummaryLines query reasoningText ++ ex).length ≤ 5
    · rw [if_pos hlen]
      simp [baseSummaryLines]
    · rw [if_neg hlen]
      simp [baseSummaryLines]
  refine ⟨?_, hhead, ?_⟩
  · unfold heuristicContextSummary
    refine trim_ne_empty _ m h ?_
    cases hl : heuristicContextLines query candidates reasoningText m with
    | nil => rw [hl] at hhead; cases hhead
    | cons a tl =>
      rw [hl] at hhead
      have ha : a = "Context reasoning:" := by simpa using hhead
      subst ha
      calc 0 < ("Context reasoning:" : String).length := by decide
        _ ≤ _ := pyJoin_length_ge_head "\n" _ tl
  · intro hbase
    unfold heuristicContextLines
    rw [hbase, if_pos (by simp [baseSummaryLines])]
    simp

/-- C9 amended witness — evaluated at budget 1 with no candidates. -/
theorem heuristic_summary_never_empty_witness :
    heuristicContextSummary "q" [] "r" 1 ≠ "" ∧
    (heuristicContextLines "q" [] "r" 1).head? = some "Context reasoning:" ∧
    (summaryLoop 1 [] [] (baseSummaryLines "q" "r") = baseSummaryLines "q" "r" →
      noEvidenceMarker ∈ heuristicContextLines "q" [] "r" 1) :=
  heuristic_summary_never_empty "q" [] "r" 1 (by decide)
